import Mathlib

/-!
Verification of the capture-and-analyze pipeline of the AI-Emotion-Detection
application: a shallow embedding of the session state (`AppState` from
`src/types.ts`), the state-update callbacks of `handleCapture`,
`handleFileUpload` and `resetMedia` (`src/App.tsx`), the image preprocessor
`compressImage` (`src/utils/imageUtils.ts`), the classification client
`analyzeEmotion` (`src/services/geminiService.ts`), and a small event-loop
transition system for the capture scheduler.  Machine numbers are modelled
as exact rationals; asynchronous outcomes are explicit parameters.
-/

/-- `EmotionType` from `src/types.ts`: the fixed emotion enumeration. -/
inductive EmotionType where
  | Happy | Sad | Angry | Surprised | Fearful
  | Disgusted | Neutral | Contemptuous | Confused
deriving DecidableEq, Repr

/-- `BoundingBox` from `src/types.ts`. -/
structure BoundingBox where
  ymin : ℚ
  xmin : ℚ
  ymax : ℚ
  xmax : ℚ
deriving DecidableEq, Repr

/-- One entry of `secondaryEmotions` in `EmotionData` (`src/types.ts`). -/
structure SecondaryEmotion where
  emotion : EmotionType
  intensity : ℚ
deriving DecidableEq, Repr

/-- `EmotionData` from `src/types.ts`: the unit of analysis result. -/
structure EmotionData where
  primaryEmotion : EmotionType
  confidence : ℚ
  secondaryEmotions : List SecondaryEmotion
  description : String
  timestamp : ℚ
  faceDetected : Bool
  boundingBox : Option BoundingBox
  faceRecognitionScore : Option ℚ
deriving DecidableEq, Repr

/-- `AppMode` from `src/types.ts`. -/
inductive AppMode where
  | Live | Media
deriving DecidableEq, Repr

/-- The `'image' | 'video'` media-type union from `src/types.ts`. -/
inductive MediaType where
  | image | video
deriving DecidableEq, Repr

/-- `AppState` from `src/types.ts`: the session state held by `useState` in
`src/App.tsx`.  Nullable fields become `Option`. -/
structure AppState where
  mode : AppMode
  isAnalyzing : Bool
  history : List EmotionData
  currentEmotion : Option EmotionData
  error : Option String
  autoMode : Bool
  mediaUrl : Option String
  mediaType : Option MediaType
deriving DecidableEq, Repr

/-- The initial state passed to `useState` in `src/App.tsx`. -/
def initialState : AppState :=
  { mode := .Live, isAnalyzing := false, history := [], currentEmotion := none,
    error := none, autoMode := false, mediaUrl := none, mediaType := none }

/-- JavaScript `arr.slice(-n)` for `n > 0`: the last `n` elements of the
array (the whole array when it is shorter than `n`). -/
def jsSliceLast (n : Nat) (l : List α) : List α :=
  l.drop (l.length - n)

/-- The `setState` update at the start of `handleCapture` (`src/App.tsx`
line 25): `{ ...prev, isAnalyzing: true, error: null }`. -/
def beginCaptureUpdate (s : AppState) : AppState :=
  { s with isAnalyzing := true, error := none }

/-- The `setState` update on classification success in `handleCapture`
(`src/App.tsx` lines 31-36): `{ ...prev, isAnalyzing: false,
currentEmotion: result, history: [...prev.history, result].slice(-100) }`. -/
def captureSuccessUpdate (s : AppState) (result : EmotionData) : AppState :=
  { s with isAnalyzing := false, currentEmotion := some result,
           history := jsSliceLast 100 (s.history ++ [result]) }

/-- The `setState` update on classification failure in `handleCapture`
(`src/App.tsx` lines 38-44): `{ ...prev, isAnalyzing: false,
error: err.message, autoMode: false }`. -/
def captureFailureUpdate (s : AppState) (msg : String) : AppState :=
  { s with isAnalyzing := false, error := some msg, autoMode := false }

/-- The `setState` update in `handleFileUpload` (`src/App.tsx` lines 68-74):
`{ ...prev, mode: 'Media', mediaUrl: url, mediaType: type,
currentEmotion: null, history: [] }`. -/
def handleFileUploadUpdate (s : AppState) (url : String) (t : MediaType) : AppState :=
  { s with mode := .Media, mediaUrl := some url, mediaType := some t,
           currentEmotion := none, history := [] }

/-- The `setState` update in `resetMedia` (`src/App.tsx` lines 83-89):
`{ ...prev, mediaUrl: null, mediaType: null, currentEmotion: null,
history: [] }`. -/
def resetMediaUpdate (s : AppState) : AppState :=
  { s with mediaUrl := none, mediaType := none, currentEmotion := none,
           history := [] }

/-- One successful capture completion as `handleCapture` performs it:
the `beginCapture` update followed by the success update. -/
def successfulCapture (s : AppState) (result : EmotionData) : AppState :=
  captureSuccessUpdate (beginCaptureUpdate s) result

/-- A sequence of successful capture completions, in order. -/
def runCaptures (s : AppState) (obs : List EmotionData) : AppState :=
  obs.foldl successfulCapture s

/- ## Image preprocessor (`compressImage`, `src/utils/imageUtils.ts`) -/

/-- The decoded source image inside `img.onload`: its `width` and `height`
in pixels, as exact numbers. -/
structure SourceImage where
  width : ℚ
  height : ℚ
deriving DecidableEq, Repr

/-- What `compressImage` leaves behind when its promise resolves: the
canvas dimensions it set and the string the promise resolved with. -/
structure CompressOutput where
  canvasWidth : ℚ
  canvasHeight : ℚ
  payload : String
deriving DecidableEq, Repr

/-- `compressImage` from `src/utils/imageUtils.ts`, from `img.onload` on:
scale `width` down to `maxWidth` (and `height` proportionally) when
`width > maxWidth`, set the canvas to those dimensions, then resolve with
the original `base64Str` when `canvas.getContext('2d')` is null
(`hasCtx = false`), else with the JPEG re-encoding of the drawn canvas
(`encodeJpeg` abstracts `canvas.toDataURL('image/jpeg', 0.6).split(',')[1]`
as a function of the canvas dimensions).  The executor never calls
`reject`, so the resolved value is total. -/
def compressImage (base64Str : String) (maxWidth : ℚ) (img : SourceImage)
    (hasCtx : Bool) (encodeJpeg : ℚ → ℚ → String) : CompressOutput :=
  let width := img.width
  let height := img.height
  let width2 := if width > maxWidth then maxWidth else width
  let height2 := if width > maxWidth then (maxWidth / width) * height else height
  if hasCtx then
    { canvasWidth := width2, canvasHeight := height2,
      payload := encodeJpeg width2 height2 }
  else
    { canvasWidth := width2, canvasHeight := height2, payload := base64Str }

/- ## Classification client (`analyzeEmotion`, `src/services/geminiService.ts`) -/

/-- The outcome of the awaited `ai.models.generateContent` call: either the
promise rejects (a transport/service failure carrying the remote's message)
or it resolves with a response whose `text` is a string body. -/
inductive RemoteOutcome where
  | transportError (msg : String)
  | response (text : String)
deriving DecidableEq, Repr

/-- The fixed message of the error thrown by the catch-all in
`analyzeEmotion` (`src/services/geminiService.ts` line 67). -/
def analyzeFailureMessage : String :=
  "Failed to analyze facial expression. Please try again."

/-- `analyzeEmotion` from `src/services/geminiService.ts`: await the remote
call, `JSON.parse` the response text (abstracted as the `parse` oracle,
`none` meaning `JSON.parse` threw or the body violates the schema), and on
success return `{ ...result, timestamp: Date.now() }` (`now` abstracts
`Date.now()`).  Every throw inside the `try` — the transport rejection and
the parse failure alike — lands in the single `catch`, which throws
`new Error("Failed to analyze facial expression. Please try again.")`. -/
def analyzeEmotion (parse : String → Option EmotionData)
    (outcome : RemoteOutcome) (now : ℚ) : Except String EmotionData :=
  match outcome with
  | .transportError _ => .error analyzeFailureMessage
  | .response text =>
    match parse text with
    | none => .error analyzeFailureMessage
    | some result => .ok { result with timestamp := now }

/- ## Capture scheduler as an event-loop transition system -/

/-- Scheduler state: the React session state plus the number of
classification calls currently in flight. -/
structure SchedState where
  app : AppState
  inFlight : Nat
deriving DecidableEq, Repr

/-- The events of the single-threaded event loop of `src/App.tsx`:
the Capture button click (rendered with `disabled={state.isAnalyzing}`),
the auto-mode interval tick (which runs `if (!state.isAnalyzing)
triggerLiveCapture()` and only exists while `mode === 'Live' &&
autoMode`), the Auto-Scan toggle, the mode-switch buttons, a file upload,
`resetMedia`, and the resolution (success or failure) of an in-flight
classification call. -/
inductive SchedEvent where
  | manualTrigger
  | timerFire
  | toggleAuto
  | setMode (m : AppMode)
  | fileUpload (url : String) (t : MediaType)
  | resetMedia
  | resolveSuccess (r : EmotionData)
  | resolveFailure (msg : String)
deriving DecidableEq, Repr

/-- Starting a classification call: `handleCapture` runs its
`beginCapture` update synchronously and the call becomes in-flight. -/
def startCall (s : SchedState) : SchedState :=
  { app := beginCaptureUpdate s.app, inFlight := s.inFlight + 1 }

/-- One step of the event loop.  A resolution event only applies when a
call is actually in flight; its `setState` callback updates whatever the
session state is at resolution time (the code has no generation tag). -/
def schedStep (s : SchedState) (e : SchedEvent) : SchedState :=
  match e with
  | .manualTrigger => if s.app.isAnalyzing then s else startCall s
  | .timerFire =>
    if s.app.mode = .Live ∧ s.app.autoMode ∧ ¬ s.app.isAnalyzing then
      startCall s
    else s
  | .toggleAuto => { s with app := { s.app with autoMode := ! s.app.autoMode } }
  | .setMode m => { s with app := { s.app with mode := m } }
  | .fileUpload url t => { s with app := handleFileUploadUpdate s.app url t }
  | .resetMedia => { s with app := resetMediaUpdate s.app }
  | .resolveSuccess r =>
    if s.inFlight = 0 then s
    else { app := captureSuccessUpdate s.app r, inFlight := s.inFlight - 1 }
  | .resolveFailure msg =>
    if s.inFlight = 0 then s
    else { app := captureFailureUpdate s.app msg, inFlight := s.inFlight - 1 }

/-- The scheduler's initial state: the initial session state, no call in
flight. -/
def initSched : SchedState :=
  { app := initialState, inFlight := 0 }

/-- Run the event loop over a sequence of events. -/
def runSched (events : List SchedEvent) : SchedState :=
  events.foldl schedStep initSched

/- ## Helper lemmas about `jsSliceLast` -/

theorem length_jsSliceLast (n : Nat) (l : List α) :
    (jsSliceLast n l).length = min l.length n := by
  simp [jsSliceLast]
  omega

theorem jsSliceLast_of_length_le (n : Nat) (l : List α) (h : l.length ≤ n) :
    jsSliceLast n l = l := by
  unfold jsSliceLast
  rw [Nat.sub_eq_zero_of_le h, List.drop_zero]

theorem jsSliceLast_append_absorb (n : Nat) (l m : List α) :
    jsSliceLast n (jsSliceLast n l ++ m) = jsSliceLast n (l ++ m) := by
  by_cases h : l.length ≤ n
  · rw [jsSliceLast_of_length_le n l h]
  · push_neg at h
    unfold jsSliceLast
    have hk : l.length - n ≤ l.length := Nat.sub_le _ _
    have hlen : (l.drop (l.length - n) ++ m).length - n = m.length := by
      simp
      omega
    have hrhs : (l ++ m).length - n = (l.length - n) + m.length := by
      simp
      omega
    rw [hlen, hrhs, ← List.drop_drop, List.drop_append_of_le_length hk]

theorem runCaptures_history (obs : List EmotionData) :
    ∀ s : AppState, s.history.length ≤ 100 →
      (runCaptures s obs).history = jsSliceLast 100 (s.history ++ obs) := by
  induction obs with
  | nil =>
    intro s h
    simpa [runCaptures] using (jsSliceLast_of_length_le 100 _ h).symm
  | cons r rest ih =>
    intro s h
    have hstep : runCaptures s (r :: rest) = runCaptures (successfulCapture s r) rest := rfl
    have hhist : (successfulCapture s r).history = jsSliceLast 100 (s.history ++ [r]) := rfl
    have hle : (successfulCapture s r).history.length ≤ 100 := by
      rw [hhist, length_jsSliceLast]
      omega
    rw [hstep, ih _ hle, hhist, jsSliceLast_append_absorb]
    simp

/- ## Claim theorems -/

/-- C1: for every sequence of successful capture completions starting from
the empty session, the history never exceeds 100 entries; and after 105
successful captures it has length exactly 100, equals the input sequence
with its oldest 5 entries evicted (FIFO, capture-completion order), and its
first element is the 6th captured observation. -/
theorem capture_history_capped_fifo (obs : List EmotionData) :
    (runCaptures initialState obs).history.length ≤ 100 ∧
    (obs.length = 105 →
      (runCaptures initialState obs).history.length = 100 ∧
      (runCaptures initialState obs).history = obs.drop 5 ∧
      (runCaptures initialState obs).history.head? = obs[5]?) := by
  have hchar := runCaptures_history obs initialState (by simp [initialState])
  simp only [show initialState.history = [] from rfl, List.nil_append] at hchar
  constructor
  · rw [hchar, length_jsSliceLast]
    omega
  · intro h105
    have hdrop : jsSliceLast 100 obs = obs.drop 5 := by
      unfold jsSliceLast
      rw [h105]
    refine ⟨?_, ?_, ?_⟩
    · rw [hchar, length_jsSliceLast, h105]
      omega
    · rw [hchar, hdrop]
    · rw [hchar, hdrop, List.head?_drop]

/-- A concrete observation used for witnesses, indexed by its timestamp. -/
def mkObs (i : Nat) : EmotionData :=
  { primaryEmotion := .Happy, confidence := 9/10, secondaryEmotions := [],
    description := "x", timestamp := i, faceDetected := true,
    boundingBox := none, faceRecognitionScore := some (4/5) }

/-- 105 pairwise distinct observations. -/
def testObs : List EmotionData :=
  (List.range 105).map mkObs

/-- Witness for C1: at the concrete 105-capture sequence `testObs`, the
resulting history is `testObs` with the oldest 5 entries dropped. -/
theorem capture_history_capped_fifo_witness :
    testObs.length = 105 ∧
    (runCaptures initialState testObs).history = testObs.drop 5 := by
  have h : testObs.length = 105 := by
    rw [testObs, List.length_map, List.length_range]
  exact ⟨h, ((capture_history_capped_fifo testObs).2 h).2.1⟩

/-- C2: for every source image and target maximum width `W`, the
preprocessor sets the output canvas to width `W` and height
`H * (W / Sw)` when the source width `Sw` exceeds `W`, and to the source
dimensions otherwise. -/
theorem compressImage_canvas_dims (b : String) (W : ℚ) (img : SourceImage)
    (c : Bool) (enc : ℚ → ℚ → String) :
    (img.width > W →
      (compressImage b W img c enc).canvasWidth = W ∧
      (compressImage b W img c enc).canvasHeight = img.height * (W / img.width)) ∧
    (img.width ≤ W →
      (compressImage b W img c enc).canvasWidth = img.width ∧
      (compressImage b W img c enc).canvasHeight = img.height) := by
  constructor
  · intro h
    cases c <;> simp [compressImage, h, mul_comm]
  · intro h
    cases c <;> simp [compressImage, not_lt.mpr h]

/-- Witness for C2: a 1024x768 source at the default target width 512
yields a 512x384 canvas, with 384 written as `768 * (512 / 1024)`. -/
theorem compressImage_canvas_dims_witness :
    ((1024 : ℚ) > 512) ∧
    (compressImage "p" 512 ⟨1024, 768⟩ true (fun _ _ => "q")).canvasWidth = 512 ∧
    (compressImage "p" 512 ⟨1024, 768⟩ true (fun _ _ => "q")).canvasHeight =
      768 * (512 / 1024) := by
  have h : ((1024 : ℚ) > 512) := by norm_num
  exact ⟨h, (compressImage_canvas_dims "p" 512 ⟨1024, 768⟩ true (fun _ _ => "q")).1 h⟩

/-- C10: `compressImage` always resolves (its executor never calls
`reject`, which the totality of the embedding reflects): when the 2D
context is unavailable it resolves with the original base64 input
unchanged, otherwise with the re-encoding of the drawn canvas. -/
theorem compressImage_always_resolves (b : String) (W : ℚ) (img : SourceImage)
    (enc : ℚ → ℚ → String) :
    (compressImage b W img false enc).payload = b ∧
    (compressImage b W img true enc).payload =
      enc (compressImage b W img true enc).canvasWidth
        (compressImage b W img true enc).canvasHeight := by
  constructor <;> simp [compressImage]

/-- Counterexample for C3: a transport failure carrying the remote message
"Remote quota exceeded" and a parse failure on a non-JSON body produce the
very same error, whose message is the fixed generic string rather than the
remote's message — the code has no distinct `MalformedResponse` and
`TransportFailure` kinds. -/
theorem analyze_error_kinds_not_distinct :
    analyzeEmotion (fun _ => none) (.transportError "Remote quota exceeded") 0 =
      analyzeEmotion (fun _ => none) (.response "not json") 0 ∧
    analyzeEmotion (fun _ => none) (.transportError "Remote quota exceeded") 0 =
      .error analyzeFailureMessage ∧
    analyzeFailureMessage ≠ "Remote quota exceeded" := by
  refine ⟨rfl, rfl, ?_⟩
  decide

/-- C3 amended: every failure cause — a transport failure (whatever the
remote's message) and a parse failure alike — raises the same single
generic error with the fixed message "Failed to analyze facial expression.
Please try again."; the remote's message is never propagated. -/
theorem analyze_failures_all_generic (parse : String → Option EmotionData)
    (msg text : String) (now : ℚ) (h : parse text = none) :
    analyzeEmotion parse (.transportError msg) now = .error analyzeFailureMessage ∧
    analyzeEmotion parse (.response text) now = .error analyzeFailureMessage := by
  refine ⟨rfl, ?_⟩
  simp [analyzeEmotion, h]

/-- Witness for the amended C3, at a parse oracle that rejects every
body. -/
theorem analyze_failures_all_generic_witness :
    (fun (_ : String) => (none : Option EmotionData)) "zz" = none ∧
    analyzeEmotion (fun _ => none) (.response "zz") 3 = .error analyzeFailureMessage := by
  exact ⟨rfl, (analyze_failures_all_generic (fun _ => none) "m" "zz" 3 rfl).2⟩

/-- C4: on every successful classification call the returned observation is
the parsed remote result with exactly the `timestamp` field replaced by the
local receipt time; every other field is returned unmodified. -/
theorem analyze_success_stamps_timestamp_only (parse : String → Option EmotionData)
    (text : String) (r : EmotionData) (now : ℚ) (h : parse text = some r) :
    analyzeEmotion parse (.response text) now = .ok { r with timestamp := now } ∧
    ∀ sent : EmotionData, analyzeEmotion parse (.response text) now = .ok sent →
      sent.timestamp = now ∧
      sent.primaryEmotion = r.primaryEmotion ∧
      sent.confidence = r.confidence ∧
      sent.secondaryEmotions = r.secondaryEmotions ∧
      sent.description = r.description ∧
      sent.faceDetected = r.faceDetected ∧
      sent.boundingBox = r.boundingBox ∧
      sent.faceRecognitionScore = r.faceRecognitionScore := by
  have hok : analyzeEmotion parse (.response text) now = .ok { r with timestamp := now } := by
    simp [analyzeEmotion, h]
  refine ⟨hok, fun sent hsent => ?_⟩
  rw [hok] at hsent
  injection hsent with hr
  subst hr
  exact ⟨rfl, rfl, rfl, rfl, rfl, rfl, rfl, rfl⟩

/-- Witness for C4, at a parse oracle returning `mkObs 7` and receipt time
42: the result is `mkObs 7` restamped to 42. -/
theorem analyze_success_stamps_timestamp_only_witness :
    (fun (_ : String) => some (mkObs 7)) "body" = some (mkObs 7) ∧
    analyzeEmotion (fun _ => some (mkObs 7)) (.response "body") 42 =
      .ok { mkObs 7 with timestamp := 42 } := by
  exact ⟨rfl,
    (analyze_success_stamps_timestamp_only (fun _ => some (mkObs 7)) "body" (mkObs 7) 42 rfl).1⟩

/-- C5: `beginCapture` (the first `setState` of `handleCapture`) sets
`isAnalyzing` to true and clears the error, leaving every other session
field unchanged. -/
theorem beginCapture_sets_flag_clears_error (s : AppState) :
    (beginCaptureUpdate s).isAnalyzing = true ∧
    (beginCaptureUpdate s).error = none ∧
    (beginCaptureUpdate s).history = s.history ∧
    (beginCaptureUpdate s).currentEmotion = s.currentEmotion ∧
    (beginCaptureUpdate s).autoMode = s.autoMode ∧
    (beginCaptureUpdate s).mode = s.mode ∧
    (beginCaptureUpdate s).mediaUrl = s.mediaUrl ∧
    (beginCaptureUpdate s).mediaType = s.mediaType :=
  ⟨rfl, rfl, rfl, rfl, rfl, rfl, rfl, rfl⟩

/-- C6: the failure completion of `handleCapture` sets `isAnalyzing` to
false, stores the error message, and forces auto mode off (whatever its
prior value), while history and the current observation are unchanged. -/
theorem failCapture_disables_auto (s : AppState) (msg : String) :
    (captureFailureUpdate s msg).isAnalyzing = false ∧
    (captureFailureUpdate s msg).error = some msg ∧
    (captureFailureUpdate s msg).autoMode = false ∧
    (captureFailureUpdate s msg).history = s.history ∧
    (captureFailureUpdate s msg).currentEmotion = s.currentEmotion ∧
    (captureFailureUpdate s msg).mode = s.mode ∧
    (captureFailureUpdate s msg).mediaUrl = s.mediaUrl ∧
    (captureFailureUpdate s msg).mediaType = s.mediaType :=
  ⟨rfl, rfl, rfl, rfl, rfl, rfl, rfl, rfl⟩

/-- C7: both ways of switching or resetting the input source — `resetMedia`
and `handleFileUpload` — clear the history and the current observation but
keep the prior error message and auto-mode flag. -/
theorem resetSession_keeps_error_and_auto (s : AppState) (url : String) (t : MediaType) :
    (resetMediaUpdate s).history = [] ∧
    (resetMediaUpdate s).currentEmotion = none ∧
    (resetMediaUpdate s).error = s.error ∧
    (resetMediaUpdate s).autoMode = s.autoMode ∧
    (handleFileUploadUpdate s url t).history = [] ∧
    (handleFileUploadUpdate s url t).currentEmotion = none ∧
    (handleFileUploadUpdate s url t).error = s.error ∧
    (handleFileUploadUpdate s url t).autoMode = s.autoMode :=
  ⟨rfl, rfl, rfl, rfl, rfl, rfl, rfl, rfl⟩

/- ## Single-flight and stale-result behaviour of the scheduler -/

/-- The scheduler invariant: at most one classification call is in flight,
and one is in flight exactly while `isAnalyzing` is true. -/
def SchedInv (s : SchedState) : Prop :=
  s.inFlight ≤ 1 ∧ (s.app.isAnalyzing = true ↔ s.inFlight = 1)

theorem startCall_inv (s : SchedState) (h1 : s.inFlight ≤ 1)
    (h2 : s.app.isAnalyzing = true ↔ s.inFlight = 1)
    (hna : ¬ s.app.isAnalyzing = true) : SchedInv (startCall s) := by
  have h0 : s.inFlight = 0 := by
    rcases Nat.lt_or_ge s.inFlight 1 with h3 | h3
    · omega
    · have h4 : s.inFlight = 1 := by omega
      exact absurd (h2.mpr h4) hna
  constructor
  · show s.inFlight + 1 ≤ 1
    omega
  · show true = true ↔ s.inFlight + 1 = 1
    simp
    omega

theorem schedStep_preserves_inv (s : SchedState) (e : SchedEvent)
    (h : SchedInv s) : SchedInv (schedStep s e) := by
  obtain ⟨h1, h2⟩ := h
  cases e with
  | manualTrigger =>
    have hred : schedStep s .manualTrigger =
        if s.app.isAnalyzing then s else startCall s := rfl
    rw [hred]
    split
    · exact ⟨h1, h2⟩
    · rename_i hc
      exact startCall_inv s h1 h2 hc
  | timerFire =>
    have hred : schedStep s .timerFire =
        if s.app.mode = .Live ∧ s.app.autoMode ∧ ¬ s.app.isAnalyzing then
          startCall s
        else s := rfl
    rw [hred]
    split
    · rename_i hc
      exact startCall_inv s h1 h2 hc.2.2
    · exact ⟨h1, h2⟩
  | toggleAuto => exact ⟨h1, h2⟩
  | setMode m => exact ⟨h1, h2⟩
  | fileUpload url t => exact ⟨h1, h2⟩
  | resetMedia => exact ⟨h1, h2⟩
  | resolveSuccess r =>
    have hred : schedStep s (.resolveSuccess r) =
        if s.inFlight = 0 then s
        else { app := captureSuccessUpdate s.app r, inFlight := s.inFlight - 1 } := rfl
    rw [hred]
    split
    · exact ⟨h1, h2⟩
    · rename_i hc
      refine ⟨by show s.inFlight - 1 ≤ 1; omega, ?_⟩
      show false = true ↔ s.inFlight - 1 = 1
      simp
      omega
  | resolveFailure msg =>
    have hred : schedStep s (.resolveFailure msg) =
        if s.inFlight = 0 then s
        else { app := captureFailureUpdate s.app msg, inFlight := s.inFlight - 1 } := rfl
    rw [hred]
    split
    · exact ⟨h1, h2⟩
    · rename_i hc
      refine ⟨by show s.inFlight - 1 ≤ 1; omega, ?_⟩
      show false = true ↔ s.inFlight - 1 = 1
      simp
      omega

theorem runSched_inv (events : List SchedEvent) : SchedInv (runSched events) := by
  have key : ∀ (l : List SchedEvent) (s : SchedState), SchedInv s →
      SchedInv (l.foldl schedStep s) := by
    intro l
    induction l with
    | nil => intro s hs; exact hs
    | cons e rest ih => intro s hs; exact ih _ (schedStep_preserves_inv s e hs)
  refine key events initSched ⟨by show 0 ≤ 1; omega, ?_⟩
  show false = true ↔ 0 = 1
  simp

/-- C8: along every interleaving of manual triggers, timer fires, mode and
auto-mode toggles, source switches and call resolutions, at most one
classification call is ever in flight; and in any reached state where
`isAnalyzing` is true, a manual trigger and an auto-timer fire are complete
no-ops — no second call is started. -/
theorem single_flight_invariant (events : List SchedEvent) :
    (runSched events).inFlight ≤ 1 ∧
    ((runSched events).app.isAnalyzing = true →
      schedStep (runSched events) .manualTrigger = runSched events ∧
      schedStep (runSched events) .timerFire = runSched events) := by
  refine ⟨(runSched_inv events).1, fun h => ⟨?_, ?_⟩⟩
  · show (if (runSched events).app.isAnalyzing then runSched events
        else startCall (runSched events)) = runSched events
    rw [if_pos h]
  · show (if (runSched events).app.mode = .Live ∧ (runSched events).app.autoMode ∧
          ¬ (runSched events).app.isAnalyzing then startCall (runSched events)
        else runSched events) = runSched events
    rw [if_neg]
    intro hcon
    exact hcon.2.2 h

/-- Witness for C8: after one manual trigger from the initial state a call
is in flight, and a further manual trigger leaves the state untouched. -/
theorem single_flight_invariant_witness :
    (runSched [SchedEvent.manualTrigger]).app.isAnalyzing = true ∧
    schedStep (runSched [SchedEvent.manualTrigger]) .manualTrigger =
      runSched [SchedEvent.manualTrigger] := by
  have h : (runSched [SchedEvent.manualTrigger]).app.isAnalyzing = true := rfl
  exact ⟨h, ((single_flight_invariant [SchedEvent.manualTrigger]).2 h).1⟩

/-- The C9 scenario: a capture starts, the user switches the input source
while the call is pending, then the call resolves. -/
def staleEvents : List SchedEvent :=
  [.manualTrigger, .fileUpload "blob:new-source" .image, .resolveSuccess (mkObs 0)]

/-- Counterexample for C9: in the concrete scenario `staleEvents` the
session state is NOT unchanged by the late resolution — the stale result is
appended to the new source's (freshly cleared) history and becomes the
current observation, instead of being discarded. -/
theorem stale_result_not_discarded :
    (runSched (staleEvents.take 2)).app.history = [] ∧
    (runSched (staleEvents.take 2)).app.currentEmotion = none ∧
    (runSched staleEvents).app.history = [mkObs 0] ∧
    (runSched staleEvents).app.currentEmotion = some (mkObs 0) ∧
    (runSched staleEvents).app ≠ (runSched (staleEvents.take 2)).app := by
  refine ⟨rfl, rfl, rfl, rfl, ?_⟩
  intro hcontra
  have hcur : (runSched staleEvents).app.currentEmotion =
      (runSched (staleEvents.take 2)).app.currentEmotion := by rw [hcontra]
  rw [show (runSched staleEvents).app.currentEmotion = some (mkObs 0) from rfl,
    show (runSched (staleEvents.take 2)).app.currentEmotion = none from rfl] at hcur
  exact Option.noConfusion hcur

/-- C9 amended: the code has no generation tagging, so a call still in
flight when the user switches the input source is applied, not discarded:
whenever at least one call is in flight, a source switch followed by the
call's successful resolution leaves the late result as the sole entry of
the new source's history and as the current observation. -/
theorem stale_result_applied (s : SchedState) (r : EmotionData)
    (url : String) (t : MediaType) (h : s.inFlight ≠ 0) :
    (schedStep (schedStep s (.fileUpload url t)) (.resolveSuccess r)).app.history = [r] ∧
    (schedStep (schedStep s (.fileUpload url t)) (.resolveSuccess r)).app.currentEmotion =
      some r := by
  have hup : schedStep s (.fileUpload url t) =
      { s with app := handleFileUploadUpdate s.app url t } := rfl
  have hfl : ({ s with app := handleFileUploadUpdate s.app url t } : SchedState).inFlight =
      s.inFlight := rfl
  have hres : schedStep { s with app := handleFileUploadUpdate s.app url t }
      (.resolveSuccess r) =
      { app := captureSuccessUpdate (handleFileUploadUpdate s.app url t) r,
        inFlight := s.inFlight - 1 } := by
    show (if s.inFlight = 0 then _ else _) = _
    rw [if_neg h]
  rw [hup, hres]
  constructor
  · show jsSliceLast 100 ([] ++ [r]) = [r]
    rw [List.nil_append]
    exact jsSliceLast_of_length_le 100 [r] (by simp)
  · rfl

/-- Witness for the amended C9: with one call in flight from the initial
state, uploading a file and then resolving yields history `[mkObs 1]`. -/
theorem stale_result_applied_witness :
    (startCall initSched).inFlight ≠ 0 ∧
    (schedStep (schedStep (startCall initSched) (.fileUpload "u" .image))
      (.resolveSuccess (mkObs 1))).app.history = [mkObs 1] := by
  have h : (startCall initSched).inFlight ≠ 0 := Nat.one_ne_zero
  exact ⟨h, (stale_result_applied (startCall initSched) (mkObs 1) "u" .image h).1⟩
